import Mathlib

/-!
Verification development for the Muskits data pipeline
(`muskit/train/dataset.py`).

The Python source is shallowly embedded: Python runtime values that can
appear as per-modality data are an inductive `PyValue`; fallible Python
code is translated to `Except PyErr`; the ambient `random` module is
an explicit stream of naturals consumed from the front; numpy arrays
are lists tagged with a dtype kind (only the leading dimension and the
float/int kind matter to the dataset logic, so elements are kept as
`PyValue`s and real-number arithmetic is done over `ℚ`; IEEE rounding
of Python floats is not modelled).
-/

set_option autoImplicit false

/-- Dtype kind of a numpy array, mirroring `value.dtype.kind` in the
source: `f` for floats, `i` for integers, `o` for every other kind. -/
inductive NpKind where
  | f
  | i
  | o
  deriving DecidableEq, Repr

/-- Python runtime values that flow through the dataset code:
ints, floats, strings, numpy arrays (dtype kind plus the list of
elements along the leading dimension), tuples and lists. -/
inductive PyValue where
  | pyint (n : Int)
  | pyfloat (q : ℚ)
  | pystr (s : String)
  | ndarray (kind : NpKind) (xs : List PyValue)
  | tuple (vs : List PyValue)
  | pylist (vs : List PyValue)

/-- The Python exceptions raised by the embedded code paths. -/
inductive PyErr where
  | valueError (msg : String)
  | typeError (msg : String)
  | runtimeError (msg : String)
  | keyError (key : String)
  | notImplementedError (msg : String)
  | assertionError
  | indexError (msg : String)

/-- Keys handed to a loader's `__getitem__`: either a bare utterance-id
string, or the `(id, pitch_aug_factor, time_aug_factor)` tuple used for
augmentation-sensitive modalities (the factor slots hold whatever Python
value the caller put there). -/
inductive AKey where
  | ofStr (s : String)
  | ofTriple (uid : String) (p : PyValue) (t : PyValue)

/-- A Python dict from modality name to value, in insertion order. -/
abbrev DataMap := List (String × PyValue)

/-- Dict lookup (`d[k]` / `d.get(k)`): first entry with the key. -/
def dget (d : DataMap) (k : String) : Option PyValue :=
  (d.find? (fun p => p.1 == k)).map (fun p => p.2)

/-- Dict assignment `d[k] = v`: replace in place if the key exists
(Python dicts keep the original position), else append. -/
def dset (d : DataMap) (k : String) (v : PyValue) : DataMap :=
  if d.any (fun p => p.1 == k) then
    d.map (fun p => if p.1 == k then (k, v) else p)
  else
    d ++ [(k, v)]

/-- Python `len(value)`: defined for sequences, a `TypeError` for bare
numbers. For a numpy array this is the leading-dimension length. -/
def pyLen : PyValue → Except PyErr Nat
  | .ndarray _ xs => .ok xs.length
  | .tuple vs => .ok vs.length
  | .pylist vs => .ok vs.length
  | .pystr s => .ok s.data.length
  | .pyint _ => .error (.typeError "object of type int has no len()")
  | .pyfloat _ => .error (.typeError "object of type float has no len()")

/-- Python `value[:n]` for the sequence types (`TypeError` otherwise). -/
def pyTake (n : Nat) : PyValue → Except PyErr PyValue
  | .ndarray k xs => .ok (.ndarray k (xs.take n))
  | .tuple vs => .ok (.tuple (vs.take n))
  | .pylist vs => .ok (.pylist (vs.take n))
  | .pystr s => .ok (.pystr (String.mk (s.data.take n)))
  | .pyint _ => .error (.typeError "int is not subscriptable")
  | .pyfloat _ => .error (.typeError "float is not subscriptable")

/-- The zero element numpy writes when assigning `0` into a slice of an
array of the given kind. -/
def zeroOfKind : NpKind → PyValue
  | .i => .pyint 0
  | _ => .pyfloat 0

/-- Helper for slice assignment: replace the elements with index in
`[a, b)` by `z`. -/
def listSetZero {α : Type} (z : α) (a b : Nat) (xs : List α) : List α :=
  (xs.zip (List.range xs.length)).map
    (fun p => if a ≤ p.2 ∧ p.2 < b then z else p.1)

/-- Python `value[a:b] = 0`: in-place slice assignment, supported by
numpy arrays only (tuples and strings raise `TypeError`, matching
`data[key][mask_index_begin:mask_index_end] = 0` in the source). -/
def pySetZeroRange (a b : Nat) : PyValue → Except PyErr PyValue
  | .ndarray k xs => .ok (.ndarray k (listSetZero (zeroOfKind k) a b xs))
  | .pylist _ => .error (.typeError "list slice assignment of int")
  | _ => .error (.typeError "object does not support item assignment")

/-- Python `value[a:b]` for nonnegative bounds: take `b`, then drop `a`. -/
def pySliceRange (a b : Nat) : PyValue → Except PyErr PyValue
  | .ndarray k xs => .ok (.ndarray k ((xs.take b).drop a))
  | .tuple vs => .ok (.tuple ((vs.take b).drop a))
  | .pylist vs => .ok (.pylist ((vs.take b).drop a))
  | .pystr s => .ok (.pystr (String.mk ((s.data.take b).drop a)))
  | .pyint _ => .error (.typeError "int is not subscriptable")
  | .pyfloat _ => .error (.typeError "float is not subscriptable")

/-- Python `int(q)` on a real value: truncation toward zero. -/
def truncQ (q : ℚ) : Int :=
  if 0 ≤ q then ⌊q⌋ else -⌊-q⌋

/-- Python `range(a, b)` over integers: `[a, a+1, ..., b-1]`. -/
def rangeInt (a b : Int) : List Int :=
  (List.range (b - a).toNat).map (fun (i : Nat) => a + (i : Int))

/-- The random stream: `random.randint` / `random.sample` consume one
natural from the front; an exhausted stream yields the least value. -/
abbrev Rng := List Nat

/-- Python `random.randint(a, b)`: uniform integer in the inclusive
range `[a, b]`; raises `ValueError` when the range is empty. -/
def pyRandint (a b : Int) (r : Rng) : Except PyErr (Int × Rng) :=
  if b < a then .error (.valueError "empty range for randrange()")
  else
    match r with
    | [] => .ok (a, [])
    | n :: rest => .ok (a + (n : Int) % (b - a + 1), rest)

/-- Python `random.sample(xs, 1)[0]`: uniform element of a nonempty
list; raises `ValueError` on an empty population. -/
def pySampleOne {α : Type} (xs : List α) (r : Rng) : Except PyErr (α × Rng) :=
  match xs with
  | [] => .error (.valueError "sample larger than population")
  | x :: tail =>
    match r with
    | [] => .ok (x, [])
    | n :: rest => .ok ((x :: tail).getD (n % (x :: tail).length) x, rest)

/-- Coerce a numeric `PyValue` to `ℚ` (`TypeError` otherwise). -/
def toQ : PyValue → Except PyErr ℚ
  | .pyint n => .ok (n : ℚ)
  | .pyfloat q => .ok q
  | _ => .error (.typeError "a number is required")

/-- Numeric coercion used where the source reads a number it has itself
produced (total; non-numbers map to 0 and never occur on those paths). -/
def numQ : PyValue → ℚ
  | .pyint n => (n : ℚ)
  | .pyfloat q => q
  | _ => 0

/-- Python tuple/list/array unpacking into two names
(`note_seq, tempo_seq = ...`): succeeds exactly on a length-2 sequence. -/
def unpack2 : PyValue → Except PyErr (PyValue × PyValue)
  | .tuple [a, b] => .ok (a, b)
  | .pylist [a, b] => .ok (a, b)
  | .ndarray _ [a, b] => .ok (a, b)
  | .tuple _ => .error (.valueError "unpack: expected 2 values")
  | .pylist _ => .error (.valueError "unpack: expected 2 values")
  | .ndarray _ _ => .error (.valueError "unpack: expected 2 values")
  | .pystr s =>
    match s.data with
    | [a, b] => .ok (.pystr (String.mk [a]), .pystr (String.mk [b]))
    | _ => .error (.valueError "unpack: expected 2 values")
  | _ => .error (.typeError "cannot unpack non-iterable")

/-- Unpacking a loader key into three names
(`key, pitch_aug_factor, time_aug_factor = key`, dataset.py line 55).
A bare string key unpacks into its characters when it has exactly three
of them and raises `ValueError` otherwise. -/
def unpack3 : AKey → Except PyErr (String × PyValue × PyValue)
  | .ofTriple u p t => .ok (u, p, t)
  | .ofStr s =>
    match s.data with
    | [a, b, c] => .ok (String.mk [a], .pystr (String.mk [b]), .pystr (String.mk [c]))
    | _ => .error (.valueError "not enough values to unpack (expected 3)")

/-- Extract the rationals of a list of numeric values (`TypeError` when
an element is not a number, as `np.mean` over non-numeric data). -/
def toNums : List PyValue → Except PyErr (List ℚ)
  | [] => .ok []
  | v :: rest =>
    match toQ v with
    | .error e => .error e
    | .ok q =>
      match toNums rest with
      | .error e => .error e
      | .ok qs => .ok (q :: qs)

/-- Python `np.mean(value)` over a numeric array or list. The empty
array yields NaN, which the source immediately feeds to `int()` where
it raises; the embedding surfaces that as the `ValueError` directly. -/
def npMean : PyValue → Except PyErr ℚ
  | .ndarray _ xs =>
    if xs.length = 0 then .error (.valueError "cannot convert float NaN to integer")
    else
      match toNums xs with
      | .error e => .error e
      | .ok qs => .ok (qs.sum / (qs.length : ℚ))
  | .pylist xs =>
    if xs.length = 0 then .error (.valueError "cannot convert float NaN to integer")
    else
      match toNums xs with
      | .error e => .error e
      | .ok qs => .ok (qs.sum / (qs.length : ℚ))
  | _ => .error (.typeError "mean requires a numeric sequence")

/-- `np.array(value)` applied to a Python list (dataset.py line 585):
the resulting dtype kind is `i` when every element is an int, `f` when
every element is numeric with at least one float, `o` otherwise. -/
def npArrayOfList (vs : List PyValue) : PyValue :=
  if vs.all (fun v => match v with | .pyint _ => true | _ => false) then
    .ndarray .i vs
  else if vs.all (fun v => match v with | .pyint _ => true | .pyfloat _ => true | _ => false) then
    .ndarray .f vs
  else
    .ndarray .o vs

/-- `np.array([value])` for a scalar (dataset.py lines 603, 644, 645). -/
def npArrayOfNum : PyValue → PyValue
  | .pyint n => .ndarray .i [.pyint n]
  | .pyfloat q => .ndarray .f [.pyfloat q]
  | v => .ndarray .o [v]

/-- A native on-disk reader queried with `(id, pitch, time)` (the
concrete readers live in `muskit/fileio`, outside the dataset module):
the function from the unpacked key components to the raw payload. -/
abbrev NativeTriple := String → PyValue → PyValue → Except PyErr PyValue

/-- A native reader queried with a bare id. -/
abbrev NativeById := String → Except PyErr PyValue

/-- One call of `AdapterForSoundScpReader.__getitem__` (dataset.py
lines 54-95), threading the adapter's mutable `self.rate` field in and
out.  The source's second `elif` (lines 63-65, the "Extended ark
format" branch) repeats the first branch's guard
`isinstance(retval[0], int) and isinstance(retval[1], np.ndarray)`
verbatim, so it can never be taken; the embedding keeps the reachable
behaviour: a `(rate, array)` tuple is accepted, any other tuple raises
`RuntimeError`. -/
def AdapterForSoundScpReader.step (native : NativeTriple) (dtype : Option NpKind)
    (rate : Option Int) (k : AKey) : Except PyErr (PyValue × Option Int) :=
  match unpack3 k with
  | .error e => .error e
  | .ok (key, p, t) =>
    match native key p t with
    | .error e => .error e
    | .ok retval =>
      match retval with
      | .tuple [r0, r1] =>
        match r0, r1 with
        | .pyint r, .ndarray kd xs =>
          if rate ≠ none ∧ rate ≠ some r then
            .error (.runtimeError "Sampling rates are mismatched")
          else
            let array :=
              match dtype with
              | some k' => PyValue.ndarray k' xs
              | none => PyValue.ndarray kd xs
            .ok (array, some r)
        | _, _ => .error (.runtimeError "Unexpected type")
      | .tuple _ => .error .assertionError
      | .pylist vs => .ok (.pylist vs, rate)
      | .ndarray kd xs =>
        let array :=
          match dtype with
          | some k' => PyValue.ndarray k' xs
          | none => PyValue.ndarray kd xs
        .ok (array, rate)
      | _ => .error .assertionError

/-- One call of `AdapterForMIDIScpReader.__getitem__` (dataset.py
lines 131-144): unpack the key, call the native reader, demand a pair
of numpy arrays, return it as the `(note_array, tempo_array)` tuple. -/
def AdapterForMIDIScpReader.step (native : NativeTriple) (k : AKey) :
    Except PyErr PyValue :=
  match unpack3 k with
  | .error e => .error e
  | .ok (key, p, t) =>
    match native key p t with
    | .error e => .error e
    | .ok retval =>
      match unpack2 retval with
      | .error _ => .error .assertionError
      | .ok (a, b) =>
        match a, b with
        | .ndarray ka na, .ndarray kb nb => .ok (.tuple [.ndarray ka na, .ndarray kb nb])
        | _, _ => .error (.runtimeError "Unexpected type")

/-- One call of `AdapterForLabelScpReader.__getitem__` (dataset.py
lines 161-174): the native value must be a list of
`[start, end, phone]` rows, converted to a `(time_array, label_list)`
tuple with `time_array` a float array of `[start, end]` pairs. -/
def AdapterForLabelScpReader.step (native : NativeById) (k : AKey) :
    Except PyErr PyValue :=
  match k with
  | .ofTriple _ _ _ => .error (.keyError "tuple key")
  | .ofStr key =>
    match native key with
    | .error e => .error e
    | .ok retval =>
      match retval with
      | .pylist rows =>
        let conv : PyValue → Except PyErr (PyValue × PyValue) := fun row =>
          match row with
          | .pylist (a :: b :: c :: _) =>
            (match toQ a, toQ b with
             | .ok qa, .ok qb => .ok (PyValue.pylist [.pyfloat qa, .pyfloat qb], c)
             | .error e, _ => .error e
             | _, .error e => .error e)
          | .pylist _ => .error (.indexError "list index out of range")
          | _ => .error (.typeError "row is not a list")
        match rows.mapM conv with
        | .error e => .error e
        | .ok pairs =>
          .ok (.tuple [.ndarray .f (pairs.map (fun p => p.1)),
                       .pylist (pairs.map (fun p => p.2))])
      | _ => .error .assertionError

/-- A constructed loader as seen by the dataset: its key set and its
`__getitem__`. Mutable per-adapter state (the sound adapter's
remembered sample rate, which starts as `None` at construction) is not
threaded across record fetches here; `AdapterForSoundScpReader.step`
models the stateful call exactly. -/
structure Loader where
  keys : List String
  call : AKey → Except PyErr PyValue

/-- `sound_loader` (dataset.py lines 177-189): a `SoundScpReader` over
the scp file (its key set and native read function are parameters,
`muskit.fileio.sound_scp` being outside the dataset module) wrapped in
`AdapterForSoundScpReader` with the dataset's float dtype and a fresh
`self.rate = None`. -/
def sound_loader (keys : List String) (native : NativeTriple)
    (float_dtype : Option NpKind) : Loader :=
  { keys := keys
    call := fun k =>
      match AdapterForSoundScpReader.step native float_dtype none k with
      | .error e => .error e
      | .ok (v, _) => .ok v }

/-- `midi_loader` (dataset.py lines 192-200): a `MIDIScpReader` wrapped
in `AdapterForMIDIScpReader`. -/
def midi_loader (keys : List String) (native : NativeTriple) : Loader :=
  { keys := keys
    call := AdapterForMIDIScpReader.step native }

/-- `label_loader` (dataset.py lines 203-211): the dict produced by
`read_label` wrapped in `AdapterForLabelScpReader`. -/
def label_loader (keys : List String) (native : NativeById) : Loader :=
  { keys := keys
    call := AdapterForLabelScpReader.step native }

/-- The configured pitch-mean target. The source stores it as a string
and decides scalar versus per-speaker list via `eval`; the embedding
uses the tagged value the string denotes ("None" maps to `none`). -/
inductive PitchMeanCfg where
  | none
  | scalar (q : ℚ)
  | perSpeaker (l : List ℚ)

/-- A `SizedDict` cache (from `muskit.utils.sized_dict`, outside the
dataset module). Modelled from the spec: keyed by utterance id, valued
by assembled records, tracking cumulative estimated byte size. -/
structure SizedDict where
  entries : List (String × DataMap)
  size : Nat

/-- Cache lookup `uid in self.cache` / `self.cache[uid]`. -/
def SizedDict.find (c : SizedDict) (uid : String) : Option DataMap :=
  ((c.entries.find? (fun p => p.1 == uid)).map (fun p => p.2))

/-- The constructed `MuskitDataset` object: every field `__init__`
stores that `__getitem__` later reads. The float/int dtype names only
matter to the embedded logic through the numpy dtype kinds, which the
cast step preserves, so they are not carried. The per-record byte-size
estimate used by the cache is the external `SizedDict`'s concern and is
abstracted as `recordSize`. -/
structure MuskitDataset where
  loader_dict : List (String × Loader)
  preprocess : Option (String → DataMap → ℚ → DataMap)
  max_cache_size : Nat
  not_align : List String
  mode : String
  pitch_aug_min : Int
  pitch_aug_max : Int
  pitch_mean : PitchMeanCfg
  time_aug_min : ℚ
  time_aug_max : ℚ
  random_crop : Bool
  mask_aug : Bool
  recordSize : DataMap → Nat

/-- The constructor arguments of `MuskitDataset.__init__`. -/
structure InitArgs where
  path_name_type_list : List (String × String × String)
  preprocess : Option (String → DataMap → ℚ → DataMap)
  max_cache_size : Nat
  not_align : List String
  mode : String
  pitch_aug_min : Int
  pitch_aug_max : Int
  pitch_mean : PitchMeanCfg
  time_aug_min : ℚ
  time_aug_max : ℚ
  random_crop : Bool
  mask_aug : Bool
  recordSize : DataMap → Nat

/-- The duplicate-modality-name error message (dataset.py line 421). -/
def dupKeyMsg (name : String) : String :=
  "\"" ++ name ++ "\" is duplicated for data-key"

/-- The zero-entry index error message (dataset.py line 427). -/
def noSamplesMsg (path : String) : String :=
  path ++ " has no samples"

/-- The loader-building loop of `__init__` (dataset.py lines 417-427):
reject a name already present, build the loader (`_build_loader`'s
registry dispatch plus file access is the `build` parameter), reject an
empty index. -/
def buildLoop (build : String → String → Except PyErr Loader) :
    List (String × String × String) → List (String × Loader) →
    Except PyErr (List (String × Loader))
  | [], acc => .ok acc
  | (path, name, ty) :: rest, acc =>
    if acc.any (fun p => p.1 == name) then
      .error (.runtimeError (dupKeyMsg name))
    else
      match build path ty with
      | .error e => .error e
      | .ok loader =>
        if loader.keys.length = 0 then .error (.runtimeError (noSamplesMsg path))
        else buildLoop build rest (acc ++ [(name, loader)])

/-- Whether the configured pitch mean is the disabled sentinel
(`self.pitch_mean != "None"`). -/
def PitchMeanCfg.isNone : PitchMeanCfg → Bool
  | .none => true
  | _ => false

/-- `MuskitDataset.__init__` (dataset.py lines 384-453): reject an
empty modality list, build the loaders with duplicate/zero-entry
checks, create the cache when the budget is positive, store the
configuration, and run the final assertions on the augmentation
bounds. -/
def MuskitDataset.init (build : String → String → Except PyErr Loader)
    (a : InitArgs) : Except PyErr (MuskitDataset × Option SizedDict) :=
  if a.path_name_type_list.length = 0 then
    .error (.valueError "1 or more elements are required for \"path_name_type_list\"")
  else
    match buildLoop build a.path_name_type_list [] with
    | .error e => .error e
    | .ok ld =>
      if ¬ a.pitch_aug_min ≤ a.pitch_aug_max then .error .assertionError
      else if ¬ a.time_aug_min ≤ a.time_aug_max then .error .assertionError
      else if ¬ a.pitch_mean.isNone ∧ ¬ a.pitch_aug_min = 0 then .error .assertionError
      else if ¬ a.pitch_mean.isNone ∧ ¬ a.pitch_aug_max = 0 then .error .assertionError
      else
        .ok ({ loader_dict := ld
               preprocess := a.preprocess
               max_cache_size := a.max_cache_size
               not_align := a.not_align
               mode := a.mode
               pitch_aug_min := a.pitch_aug_min
               pitch_aug_max := a.pitch_aug_max
               pitch_mean := a.pitch_mean
               time_aug_min := a.time_aug_min
               time_aug_max := a.time_aug_max
               random_crop := a.random_crop
               mask_aug := a.mask_aug
               recordSize := a.recordSize },
             if 0 < a.max_cache_size then some { entries := [], size := 0 } else none)

/-- `MuskitDataset.has_name` (dataset.py line 495). -/
def MuskitDataset.has_name (d : MuskitDataset) (name : String) : Bool :=
  d.loader_dict.any (fun p => p.1 == name)

/-- `MuskitDataset.names` (dataset.py line 498): the declared modality
names in declaration order. -/
def MuskitDataset.names (d : MuskitDataset) : List String :=
  d.loader_dict.map (fun p => p.1)

/-- Lookup in `self.loader_dict` (a Python `KeyError` when absent is
surfaced at the use site). -/
def dictFindLoader (ld : List (String × Loader)) (name : String) : Option Loader :=
  (ld.find? (fun p => p.1 == name)).map (fun p => p.2)

/-- The hardcoded speaker-tag list of dataset.py line 536. -/
def speaker_lst : List String := ["oniku", "ofuton", "kiritan", "natsume"]

/-- Python `tag in uid` substring test. -/
def isSubstrIn (tag uid : String) : Bool :=
  (uid.splitOn tag).length != 1

/-- The speaker-tag matching loop of dataset.py lines 537-542:
`_find_num` counts the tags occurring in the utterance id, and
`_find_index` ends as the index of the last match (0 when none). -/
def speakerMatch (uid : String) : Nat × Nat :=
  (List.range speaker_lst.length).foldl
    (fun st i =>
      if isSubstrIn (speaker_lst.getD i "") uid then (st.1 + 1, i) else st)
    (0, 0)

/-- The candidate pitch shifts for a target-mean gap (dataset.py lines
549-554): `[0]` when the gap is zero, `gap..0` when negative,
`0..gap` when positive. -/
def pitchGapLst (gap : Int) : List Int :=
  if gap = 0 then [0]
  else if gap < 0 then rangeInt gap 1
  else rangeInt 0 (gap + 1)

/-- The pitch-augmentation draw of dataset.py lines 525-558. With a
pitch-mean target configured: read the `"midi"` loader at
`(uid, 0, 1)`, take the mean of the note sequence, resolve the target
(scalar, or per-speaker entry selected by the tag match with its
`assert _find_num == 1`), and sample from the integer range spanning
`0` to the truncated gap. Otherwise: `randint(pitch_aug_min,
pitch_aug_max)`. -/
def samplePitchAug (d : MuskitDataset) (uid : String) (rng : Rng) :
    Except PyErr (Int × Rng) :=
  match d.pitch_mean with
  | .none => pyRandint d.pitch_aug_min d.pitch_aug_max rng
  | pm =>
    match dictFindLoader d.loader_dict "midi" with
    | none => .error (.keyError "midi")
    | some loader =>
      match loader.call (.ofTriple uid (.pyint 0) (.pyint 1)) with
      | .error e => .error e
      | .ok v =>
        match unpack2 v with
        | .error e => .error e
        | .ok (note_seq, _tempo_seq) =>
          match npMean note_seq with
          | .error e => .error e
          | .ok sample_pitch_mean =>
            match (match pm with
                   | .scalar q => Except.ok q
                   | .perSpeaker l =>
                     let st := speakerMatch uid
                     if st.1 ≠ 1 then Except.error PyErr.assertionError
                     else
                       match l.get? st.2 with
                       | some q => Except.ok q
                       | none => Except.error (PyErr.indexError "list index out of range")
                   | .none => Except.ok 0) with  -- unreachable: outer branch took .none
            | .error e => .error e
            | .ok global_pitch_mean =>
              let gap := truncQ (global_pitch_mean - sample_pitch_mean)
              pySampleOne (pitchGapLst gap) rng

/-- The discrete time-stretch factor set of dataset.py lines 560-565:
`[i / 100 for i in range(int(time_aug_min * 100),
int(time_aug_max * 100 + 1))]`. -/
def timeAugLst (d : MuskitDataset) : List ℚ :=
  (rangeInt (truncQ (d.time_aug_min * 100)) (truncQ (d.time_aug_max * 100 + 1))).map
    (fun i => (i : ℚ) / 100)

/-- The time-augmentation draw of dataset.py line 569. -/
def sampleTimeAug (d : MuskitDataset) (rng : Rng) : Except PyErr (ℚ × Rng) :=
  pySampleOne (timeAugLst d) rng

/-- Augmentation parameter sampling (dataset.py lines 524-572): both
draws in training mode, the identity parameters (`pitch_aug_factor = 0`,
`time_aug_factor = 1`, an int) otherwise. -/
def sampleAug (d : MuskitDataset) (uid : String) (rng : Rng) :
    Except PyErr (Int × PyValue × Rng) :=
  if d.mode == "train" then
    match samplePitchAug d uid rng with
    | .error e => .error e
    | .ok (p, rng1) =>
      match sampleTimeAug d rng1 with
      | .error e => .error e
      | .ok (t, rng2) => .ok (p, .pyfloat t, rng2)
  else .ok (0, .pyint 1, rng)

/-- The key each modality's loader is queried with (dataset.py lines
579-583): the names `"midi"` and `"singing"` get the triple
`(uid, pitch_aug_factor, global_time_aug_factor)` with
`global_time_aug_factor = 1`; every other name gets the bare id. -/
def queryKeyFor (name uid : String) (pitch : Int) : AKey :=
  if name == "midi" || name == "singing" then
    .ofTriple uid (.pyint pitch) (.pyint 1)
  else .ofStr uid

/-- Value normalization after a loader call (dataset.py lines 584-604):
a list becomes `np.array(value)`, a bare number becomes a length-1
array; the `isinstance` type check admits every constructor of
`PyValue` (torch tensors are outside the embedding). -/
def normalizeValue (v : PyValue) : PyValue :=
  let v1 := match v with
    | .pylist vs => npArrayOfList vs
    | w => w
  match v1 with
  | .pyint n => .ndarray .i [.pyint n]
  | .pyfloat q => .ndarray .f [.pyfloat q]
  | w => w

/-- The loader loop of dataset.py lines 576-604, also recording each
query key so the theorems can speak about what each loader was asked
for. Adapter failures propagate (the source logs and re-raises). -/
def loadLoop (uid : String) (pitch : Int) :
    List (String × Loader) → DataMap → List (String × AKey) →
    Except PyErr (DataMap × List (String × AKey))
  | [], d, log => .ok (d, log.reverse)
  | (name, loader) :: rest, d, log =>
    match loader.call (queryKeyFor name uid pitch) with
    | .error e => .error e
    | .ok v =>
      loadLoop uid pitch rest (dset d name (normalizeValue v))
        ((name, queryKeyFor name uid pitch) :: log)

/-- The list comprehension of dataset.py line 612:
`[len(data[key]) for key in data.keys() if key not in self.not_align]`. -/
def lensOf (na : List String) : DataMap → Except PyErr (List Nat)
  | [] => .ok []
  | p :: rest =>
    if na.contains p.1 then lensOf na rest
    else
      match pyLen p.2 with
      | .error e => .error e
      | .ok n =>
        match lensOf na rest with
        | .error e => .error e
        | .ok ns => .ok (n :: ns)

/-- The alignment length of dataset.py lines 611-613: `min` over the
non-exempt lengths; `min` of an empty sequence raises `ValueError`,
`len` of a bare number `TypeError`. -/
def computeAlignLen (na : List String) (d : DataMap) : Except PyErr Nat :=
  match lensOf na d with
  | .error e => .error e
  | .ok [] => .error (.valueError "min() arg is an empty sequence")
  | .ok (x :: xs) => .ok (xs.foldl Nat.min x)

/-- The mask-window draw of dataset.py lines 616-624 (training mode
with `mask_aug` only): a length up to `int(length * 0.2)` and a start
position, else the degenerate `[0, length)` window. -/
def maskStage (d : MuskitDataset) (L : Nat) (rng : Rng) :
    Except PyErr (Option (Nat × Nat) × Rng) :=
  if d.mode == "train" && d.mask_aug then
    match pyRandint 0 (truncQ ((L : ℚ) * (2 / 10))) rng with
    | .error e => .error e
    | .ok (mlen, rng1) =>
      if 0 < (L : Int) - mlen then
        match pyRandint 0 ((L : Int) - mlen) rng1 with
        | .error e => .error e
        | .ok (b, rng2) => .ok (some (b.toNat, (b + mlen).toNat), rng2)
      else .ok (some (0, L), rng1)
  else .ok (none, rng)

/-- The crop-window draw of dataset.py lines 626-629 (training mode
with `random_crop` only): a window length in
`[int(length * 0.8), length]` and a start position within bounds. -/
def cropStage (d : MuskitDataset) (L : Nat) (rng : Rng) :
    Except PyErr (Option (Nat × Nat) × Rng) :=
  if d.mode == "train" && d.random_crop then
    match pyRandint (truncQ ((L : ℚ) * (8 / 10))) (L : Int) rng with
    | .error e => .error e
    | .ok (clen, rng1) =>
      match pyRandint 0 ((L : Int) - clen) rng1 with
      | .error e => .error e
      | .ok (b, rng2) => .ok (some (b.toNat, (b + clen).toNat), rng2)
  else .ok (none, rng)

/-- The mask substep of the alignment loop (dataset.py lines 636-637):
zero the drawn window in place, when one was drawn. -/
def maskStep (maskR : Option (Nat × Nat)) (v : PyValue) : Except PyErr PyValue :=
  match maskR with
  | some ab => pySetZeroRange ab.1 ab.2 v
  | none => .ok v

/-- The crop substep of the alignment loop (dataset.py lines 638-639):
slice to the drawn window, when one was drawn. -/
def cropStep (cropR : Option (Nat × Nat)) (v : PyValue) : Except PyErr PyValue :=
  match cropR with
  | some ab => pySliceRange ab.1 ab.2 v
  | none => .ok v

/-- One iteration of the alignment loop of dataset.py lines 631-639:
exempt keys are untouched; every other value is truncated to the
alignment length, then mask-zeroed and crop-sliced when those windows
were drawn. -/
def alignEntry (na : List String) (L : Nat) (maskR cropR : Option (Nat × Nat))
    (p : String × PyValue) : Except PyErr (String × PyValue) :=
  if na.contains p.1 then .ok p
  else
    match pyTake L p.2 with
    | .error e => .error e
    | .ok v1 =>
      match maskStep maskR v1 with
      | .error e => .error e
      | .ok v2 =>
        match cropStep cropR v2 with
        | .error e => .error e
        | .ok v3 => .ok (p.1, v3)

/-- The alignment loop over the whole record (dataset.py lines
631-639), entry by entry in dict order. -/
def alignLoop (na : List String) (L : Nat) (maskR cropR : Option (Nat × Nat)) :
    DataMap → Except PyErr DataMap
  | [] => .ok []
  | p :: rest =>
    match alignEntry na L maskR cropR p with
    | .error e => .error e
    | .ok p' =>
      match alignLoop na L maskR cropR rest with
      | .error e => .error e
      | .ok rest' => .ok (p' :: rest')

/-- One iteration of the precision-cast loop of dataset.py lines
648-663: only arrays and tuples may remain; float and int arrays are
cast to the configured precision (the dtype kind, which is all the
embedding tracks, is unchanged), any other array kind is rejected. -/
def castEntry (p : String × PyValue) : Except PyErr (String × PyValue) :=
  match p.2 with
  | .ndarray .f xs => .ok (p.1, .ndarray .f xs)
  | .ndarray .i xs => .ok (p.1, .ndarray .i xs)
  | .ndarray .o _ => .error (.notImplementedError "Not supported dtype")
  | .tuple vs => .ok (p.1, .tuple vs)
  | _ => .error (.runtimeError "All values must be converted to np.ndarray object by preprocessing")

/-- The precision-cast loop over the whole record. -/
def castLoop : DataMap → Except PyErr DataMap
  | [] => .ok []
  | p :: rest =>
    match castEntry p with
    | .error e => .error e
    | .ok p' =>
      match castLoop rest with
      | .error e => .error e
      | .ok rest' => .ok (p' :: rest')

/-- The cache admission of dataset.py lines 665-666: insert only when a
cache exists and its current size is below the budget. -/
def cacheInsert (d : MuskitDataset) (cache : Option SizedDict) (uid : String)
    (record : DataMap) : Option SizedDict :=
  match cache with
  | none => none
  | some c =>
    if c.size < d.max_cache_size then
      some { entries := c.entries ++ [(uid, record)], size := c.size + d.recordSize record }
    else some c

/-- Application of the injected preprocessing callable of dataset.py
lines 606-609 (`muskit.train.preprocessor` is outside the dataset
module, so the callable itself is a parameter). -/
def applyPre (pre : Option (String → DataMap → ℚ → DataMap)) (uid : String)
    (d : DataMap) (t : ℚ) : DataMap :=
  match pre with
  | some f => f uid d t
  | none => d

/-- The first half of a cache-miss `__getitem__` (dataset.py lines
524-609): sample the augmentation parameters, query every loader,
apply the injected preprocessing. Returns the pitch factor, the
time-factor value, the raw record, the query log, and the remaining
random stream. -/
def rawStage (d : MuskitDataset) (rng : Rng) (uid : String) :
    Except PyErr (Int × PyValue × DataMap × List (String × AKey) × Rng) :=
  match sampleAug d uid rng with
  | .error e => .error e
  | .ok (pitch, tval, rng1) =>
    match loadLoop uid pitch d.loader_dict [] [] with
    | .error e => .error e
    | .ok (data0, log) =>
      .ok (pitch, tval, applyPre d.preprocess uid data0 (numQ tval), log, rng1)

/-- The second half of a cache-miss `__getitem__` (dataset.py lines
611-671): alignment length, mask and crop windows, the alignment loop,
the two injected augmentation fields, the precision cast, and the cache
admission. -/
def finishStage (d : MuskitDataset) (cache : Option SizedDict) (uid : String)
    (pitch : Int) (tval : PyValue) (data1 : DataMap)
    (log : List (String × AKey)) (rng : Rng) :
    Except PyErr ((String × DataMap) × Option SizedDict × Rng × List (String × AKey)) :=
  match computeAlignLen d.not_align data1 with
  | .error e => .error e
  | .ok L =>
    match maskStage d L rng with
    | .error e => .error e
    | .ok (maskR, rng1) =>
      match cropStage d L rng1 with
      | .error e => .error e
      | .ok (cropR, rng2) =>
        match alignLoop d.not_align L maskR cropR data1 with
        | .error e => .error e
        | .ok data2 =>
          match castLoop (dset (dset data2 "pitch_aug" (npArrayOfNum (.pyint pitch)))
            "time_aug" (npArrayOfNum tval)) with
          | .error e => .error e
          | .ok data4 =>
            .ok ((uid, data4), cacheInsert d cache uid data4, rng2, log)

/-- A cache-miss `__getitem__` call. -/
def MuskitDataset.getitemMiss (d : MuskitDataset) (cache : Option SizedDict)
    (rng : Rng) (uid : String) :
    Except PyErr ((String × DataMap) × Option SizedDict × Rng × List (String × AKey)) :=
  match rawStage d rng uid with
  | .error e => .error e
  | .ok (pitch, tval, data1, log, rng1) =>
    finishStage d cache uid pitch tval data1 log rng1

/-- The cache-hit test of dataset.py line 520:
`self.cache is not None and uid in self.cache`, paired with the read
`self.cache[uid]` of line 521. -/
def cacheLookup (cache : Option SizedDict) (uid : String) : Option DataMap :=
  match cache with
  | some c => c.find uid
  | none => none

/-- `MuskitDataset.__getitem__` for a string uid (dataset.py lines
512-671), with the cache and the random stream passed and returned
explicitly. On a cache hit (lines 520-522) the cached record is
returned at once. The extra query-log component records each loader
access for the theorems; Python returns only the `(uid, data)` pair. -/
def MuskitDataset.getitem (d : MuskitDataset) (cache : Option SizedDict)
    (rng : Rng) (uid : String) :
    Except PyErr ((String × DataMap) × Option SizedDict × Rng × List (String × AKey)) :=
  match cacheLookup cache uid with
  | some data => .ok ((uid, data), cache, rng, [])
  | none => MuskitDataset.getitemMiss d cache rng uid

/-- The method names `class MuskitDataset` itself defines (dataset.py
lines 373-671). -/
def muskitDatasetMethods : List String :=
  ["__init__", "_build_loader", "has_name", "names", "__iter__", "__repr__", "__getitem__"]

/-- The method names `class AbsDataset` defines (dataset.py lines
359-370). -/
def absDatasetMethods : List String :=
  ["has_name", "names", "__getitem__"]

/-- The method names `torch.utils.data.dataset.Dataset` (the external
base class) defines for instances. -/
def torchDatasetMethods : List String :=
  ["__getitem__", "__add__"]

/-- The method-resolution order of `MuskitDataset` as method-name
lists (`object`, which defines no `__len__` either, omitted). -/
def muskitDatasetMro : List (List String) :=
  [muskitDatasetMethods, absDatasetMethods, torchDatasetMethods]

/-- Whether `len(dataset)` can dispatch: Python's `len` requires some
class in the MRO to define `__len__`. -/
def datasetDefinesDunderLen : Bool :=
  muskitDatasetMro.any (fun ms => ms.contains "__len__")

/-- Python `len(dataset)`: a `TypeError` because no class in the MRO
defines `__len__` (the then-branch, the first loader's entry count,
is what a `__len__` per the spec's consumer contract would return; it
is unreachable). -/
def MuskitDataset.pyLenOf (d : MuskitDataset) : Except PyErr Nat :=
  if datasetDefinesDunderLen then
    .ok ((d.loader_dict.map (fun p => p.2.keys.length)).headD 0)
  else
    .error (.typeError "object of type MuskitDataset has no len()")

/-- The common final length the alignment loop leaves for a non-exempt
value: the crop window's length when a crop window was drawn, otherwise
the alignment length itself. -/
def cropLenOf (cropR : Option (Nat × Nat)) (L : Nat) : Nat :=
  match cropR with
  | none => L
  | some ab => min ab.2 L - ab.1

theorem pyRandint_ok_bounds {a b x : Int} {r r' : Rng}
    (h : pyRandint a b r = .ok (x, r')) : a ≤ x ∧ x ≤ b := by
  unfold pyRandint at h
  split at h
  · exact absurd h (by simp)
  · rename_i hba
    cases r with
    | nil =>
      simp only [Except.ok.injEq, Prod.mk.injEq] at h
      omega
    | cons n rest =>
      simp only [Except.ok.injEq, Prod.mk.injEq] at h
      have h1 : 0 ≤ (n : Int) % (b - a + 1) := Int.emod_nonneg _ (by omega)
      have h2 : (n : Int) % (b - a + 1) < b - a + 1 := Int.emod_lt_of_pos _ (by omega)
      omega

theorem list_getD_mem {α : Type} (l : List α) (i : Nat) (d : α)
    (hi : i < l.length) : l.getD i d ∈ l := by
  induction l generalizing i with
  | nil => simp at hi
  | cons x xs ih =>
    cases i with
    | zero => simp [List.getD]
    | succ j =>
      have := ih j (by simpa using hi)
      simp only [List.getD] at this ⊢
      exact List.mem_cons_of_mem _ this

theorem pySampleOne_ok_mem {α : Type} {xs : List α} {r r' : Rng} {x : α}
    (h : pySampleOne xs r = .ok (x, r')) : x ∈ xs := by
  unfold pySampleOne at h
  cases xs with
  | nil => exact absurd h (by simp)
  | cons y tail =>
    cases r with
    | nil =>
      simp only [Except.ok.injEq, Prod.mk.injEq] at h
      exact h.1 ▸ List.mem_cons_self _ _
    | cons n rest =>
      simp only [Except.ok.injEq, Prod.mk.injEq] at h
      have hm : n % (y :: tail).length < (y :: tail).length :=
        Nat.mod_lt _ (by simp)
      exact h.1 ▸ list_getD_mem _ _ _ hm

theorem mem_rangeInt {a b x : Int} (h : x ∈ rangeInt a b) : a ≤ x ∧ x < b := by
  unfold rangeInt at h
  obtain ⟨i, hi, hx⟩ := List.mem_map.mp h
  rw [List.mem_range] at hi
  subst hx
  omega

theorem mem_pitchGapLst {g x : Int} (h : x ∈ pitchGapLst g) :
    min 0 g ≤ x ∧ x ≤ max 0 g := by
  unfold pitchGapLst at h
  split at h
  · rename_i hg
    simp only [List.mem_singleton] at h
    omega
  · split at h
    · rename_i hg hneg
      have := mem_rangeInt h
      omega
    · rename_i hg hneg
      have := mem_rangeInt h
      omega

theorem foldlMin_le (xs : List Nat) (x : Nat) :
    xs.foldl Nat.min x ≤ x ∧ ∀ y ∈ xs, xs.foldl Nat.min x ≤ y := by
  induction xs generalizing x with
  | nil => simp
  | cons z zs ih =>
    refine ⟨?_, ?_⟩
    · have h1 := (ih (Nat.min x z)).1
      simp only [List.foldl_cons]
      exact le_trans h1 (Nat.min_le_left _ _)
    · intro y hy
      simp only [List.foldl_cons]
      rcases List.mem_cons.mp hy with hz | hmem
      · subst hz
        exact le_trans (ih (Nat.min x y)).1 (Nat.min_le_right _ _)
      · exact (ih (Nat.min x z)).2 y hmem

theorem lensOf_mem {na : List String} :
    ∀ {d : DataMap} {ns : List Nat}, lensOf na d = .ok ns →
      ∀ p ∈ d, na.contains p.1 = false → ∃ n, pyLen p.2 = .ok n ∧ n ∈ ns := by
  intro d
  induction d with
  | nil => intro ns h p hp; simp at hp
  | cons q rest ih =>
    intro ns h p hp hna
    unfold lensOf at h
    rcases List.mem_cons.mp hp with rfl | hmem
    · rw [if_neg (by rw [hna]; exact Bool.false_ne_true)] at h
      cases hq : pyLen p.2 with
      | error e => rw [hq] at h; exact absurd h (by simp)
      | ok n =>
        rw [hq] at h
        cases hr : lensOf na rest with
        | error e => rw [hr] at h; exact absurd h (by simp)
        | ok ms =>
          rw [hr] at h
          simp only [Except.ok.injEq] at h
          exact ⟨n, rfl, h ▸ List.mem_cons_self _ _⟩
    · by_cases hq : na.contains q.1 = true
      · rw [if_pos hq] at h
        exact ih h p hmem hna
      · rw [if_neg hq] at h
        cases hql : pyLen q.2 with
        | error e => rw [hql] at h; exact absurd h (by simp)
        | ok n =>
          rw [hql] at h
          cases hr : lensOf na rest with
          | error e => rw [hr] at h; exact absurd h (by simp)
          | ok ms =>
            rw [hr] at h
            simp only [Except.ok.injEq] at h
            obtain ⟨m, hm1, hm2⟩ := ih hr p hmem hna
            exact ⟨m, hm1, h ▸ List.mem_cons_of_mem _ hm2⟩

theorem computeAlignLen_bound {na : List String} {d : DataMap} {L : Nat}
    (h : computeAlignLen na d = .ok L) :
    ∀ p ∈ d, na.contains p.1 = false → ∃ n, pyLen p.2 = .ok n ∧ L ≤ n := by
  intro p hp hna
  unfold computeAlignLen at h
  cases hl : lensOf na d with
  | error e => rw [hl] at h; exact absurd h (by simp)
  | ok ns =>
    rw [hl] at h
    obtain ⟨n, hn1, hn2⟩ := lensOf_mem hl p hp hna
    cases ns with
    | nil => simp at hn2
    | cons x xs =>
      simp only [Except.ok.injEq] at h
      subst h
      refine ⟨n, hn1, ?_⟩
      rcases List.mem_cons.mp hn2 with rfl | hmem
      · exact (foldlMin_le xs n).1
      · exact (foldlMin_le xs x).2 n hmem

theorem dget_mem {d : DataMap} {k : String} {v : PyValue}
    (h : dget d k = some v) : (k, v) ∈ d := by
  unfold dget at h
  cases hf : d.find? (fun p => p.1 == k) with
  | none => rw [hf] at h; exact absurd h (by simp)
  | some p =>
    rw [hf] at h
    simp only [Option.map_some', Option.some.injEq] at h
    have hpred := List.find?_some hf
    have hmem := List.mem_of_find?_eq_some hf
    have hk : p.1 = k := by simpa using hpred
    have : (k, v) = p := by
      cases p
      simp only [Prod.mk.injEq]
      exact ⟨hk.symm, h.symm⟩
    rw [this]
    exact hmem

theorem dget_cons_hit {q : String × PyValue} {rest : DataMap} {k : String}
    (h : (q.1 == k) = true) : dget (q :: rest) k = some q.2 := by
  simp [dget, List.find?, h]

theorem dget_cons_miss {q : String × PyValue} {rest : DataMap} {k : String}
    (h : (q.1 == k) = false) : dget (q :: rest) k = dget rest k := by
  simp [dget, List.find?, h]

theorem dget_mapReplace (d : DataMap) (k k' : String) (v : PyValue)
    (h : k' ≠ k) :
    dget (d.map (fun p => if p.1 == k then (k, v) else p)) k' = dget d k' := by
  induction d with
  | nil => rfl
  | cons q rest ih =>
    simp only [List.map_cons]
    cases hq : (q.1 == k) with
    | true =>
      rw [if_pos rfl]
      have hkq : (k == k') = false := beq_eq_false_iff_ne.mpr (fun hh => h hh.symm)
      have hq' : (q.1 == k') = false := by rw [eq_of_beq hq]; exact hkq
      rw [dget_cons_miss hkq, dget_cons_miss hq']
      exact ih
    | false =>
      rw [if_neg Bool.false_ne_true]
      cases hq' : (q.1 == k') with
      | true => rw [dget_cons_hit hq', dget_cons_hit hq']
      | false => rw [dget_cons_miss hq', dget_cons_miss hq']; exact ih

theorem dget_append_single (d : DataMap) (k k' : String) (v : PyValue)
    (h : k' ≠ k) : dget (d ++ [(k, v)]) k' = dget d k' := by
  induction d with
  | nil =>
    have hkq : (k == k') = false := beq_eq_false_iff_ne.mpr (fun hh => h hh.symm)
    simp [dget, List.find?, hkq]
  | cons q rest ih =>
    simp only [List.cons_append]
    cases hq' : (q.1 == k') with
    | true => rw [dget_cons_hit hq', dget_cons_hit hq']
    | false => rw [dget_cons_miss hq', dget_cons_miss hq']; exact ih

theorem dget_mapReplace_hit (d : DataMap) (k : String) (v : PyValue)
    (h : d.any (fun p => p.1 == k) = true) :
    dget (d.map (fun p => if p.1 == k then (k, v) else p)) k = some v := by
  induction d with
  | nil => simp at h
  | cons q rest ih =>
    simp only [List.map_cons]
    cases hq : (q.1 == k) with
    | true =>
      rw [if_pos rfl]
      exact dget_cons_hit (beq_self_eq_true k)
    | false =>
      rw [if_neg Bool.false_ne_true]
      rw [dget_cons_miss hq]
      simp only [List.any_cons, hq, Bool.false_or] at h
      exact ih h

theorem dget_append_single_hit (d : DataMap) (k : String) (v : PyValue)
    (h : d.any (fun p => p.1 == k) = false) :
    dget (d ++ [(k, v)]) k = some v := by
  induction d with
  | nil => exact dget_cons_hit (beq_self_eq_true k)
  | cons q rest ih =>
    simp only [List.any_cons, Bool.or_eq_false_iff] at h
    simp only [List.cons_append]
    rw [dget_cons_miss h.1]
    exact ih h.2

theorem dget_dset_same (d : DataMap) (k : String) (v : PyValue) :
    dget (dset d k v) k = some v := by
  unfold dset
  cases hany : d.any (fun p => p.1 == k) with
  | true => rw [if_pos rfl]; exact dget_mapReplace_hit d k v hany
  | false =>
    rw [if_neg Bool.false_ne_true]
    exact dget_append_single_hit d k v hany

theorem dget_dset_ne (d : DataMap) (k k' : String) (v : PyValue)
    (h : k' ≠ k) : dget (dset d k v) k' = dget d k' := by
  unfold dset
  cases hany : d.any (fun p => p.1 == k) with
  | true => rw [if_pos rfl]; exact dget_mapReplace d k k' v h
  | false =>
    rw [if_neg Bool.false_ne_true]
    exact dget_append_single d k k' v h

theorem castEntry_id {p p' : String × PyValue} (h : castEntry p = .ok p') :
    p' = p := by
  obtain ⟨k, v⟩ := p
  cases v with
  | ndarray kind xs =>
    cases kind <;> simp only [castEntry] at h <;>
      first
      | (simp only [Except.ok.injEq] at h; exact h.symm)
      | exact absurd h (by simp)
  | tuple vs =>
    simp only [castEntry, Except.ok.injEq] at h
    exact h.symm
  | pyint n => exact absurd h (by simp [castEntry])
  | pyfloat q => exact absurd h (by simp [castEntry])
  | pystr s => exact absurd h (by simp [castEntry])
  | pylist vs => exact absurd h (by simp [castEntry])

theorem castLoop_id : ∀ {d d' : DataMap}, castLoop d = .ok d' → d' = d := by
  intro d
  induction d with
  | nil => intro d' h; simp only [castLoop, Except.ok.injEq] at h; exact h.symm
  | cons p rest ih =>
    intro d' h
    unfold castLoop at h
    cases hc : castEntry p with
    | error e => rw [hc] at h; exact absurd h (by simp)
    | ok p' =>
      rw [hc] at h
      cases hr : castLoop rest with
      | error e => rw [hr] at h; exact absurd h (by simp)
      | ok rest' =>
        rw [hr] at h
        simp only [Except.ok.injEq] at h
        rw [← h, castEntry_id hc, ih hr]

theorem listSetZero_length {α : Type} (z : α) (a b : Nat) (xs : List α) :
    (listSetZero z a b xs).length = xs.length := by
  simp [listSetZero]

theorem pyTake_len {v v1 : PyValue} {n L : Nat} (h : pyTake L v = .ok v1)
    (hn : pyLen v = .ok n) (hL : L ≤ n) : pyLen v1 = .ok L := by
  cases v with
  | pyint m => exact absurd h (by simp [pyTake])
  | pyfloat q => exact absurd h (by simp [pyTake])
  | ndarray kind xs =>
    simp only [pyTake, Except.ok.injEq] at h
    simp only [pyLen, Except.ok.injEq] at hn
    subst h
    subst hn
    show Except.ok (xs.take L).length = _
    rw [List.length_take, Nat.min_eq_left hL]
  | tuple vs =>
    simp only [pyTake, Except.ok.injEq] at h
    simp only [pyLen, Except.ok.injEq] at hn
    subst h
    subst hn
    show Except.ok (vs.take L).length = _
    rw [List.length_take, Nat.min_eq_left hL]
  | pylist vs =>
    simp only [pyTake, Except.ok.injEq] at h
    simp only [pyLen, Except.ok.injEq] at hn
    subst h
    subst hn
    show Except.ok (vs.take L).length = _
    rw [List.length_take, Nat.min_eq_left hL]
  | pystr s =>
    simp only [pyTake, Except.ok.injEq] at h
    simp only [pyLen, Except.ok.injEq] at hn
    subst h
    subst hn
    show Except.ok (s.data.take L).length = _
    rw [List.length_take, Nat.min_eq_left hL]

theorem pySetZero_len {a b : Nat} {v v' : PyValue}
    (h : pySetZeroRange a b v = .ok v') : pyLen v' = pyLen v := by
  cases v with
  | ndarray kind xs =>
    simp only [pySetZeroRange, Except.ok.injEq] at h
    subst h
    simp [pyLen, listSetZero_length]
  | pyint m => exact absurd h (by simp [pySetZeroRange])
  | pyfloat q => exact absurd h (by simp [pySetZeroRange])
  | pystr s => exact absurd h (by simp [pySetZeroRange])
  | tuple vs => exact absurd h (by simp [pySetZeroRange])
  | pylist vs => exact absurd h (by simp [pySetZeroRange])

theorem pySlice_len {a b : Nat} {v v' : PyValue} {m : Nat}
    (h : pySliceRange a b v = .ok v') (hm : pyLen v = .ok m) :
    pyLen v' = .ok (min b m - a) := by
  cases v with
  | pyint k => exact absurd h (by simp [pySliceRange])
  | pyfloat q => exact absurd h (by simp [pySliceRange])
  | ndarray kind xs =>
    simp only [pySliceRange, Except.ok.injEq] at h
    simp only [pyLen, Except.ok.injEq] at hm
    subst h
    subst hm
    simp [pyLen, List.length_drop, List.length_take]
  | tuple vs =>
    simp only [pySliceRange, Except.ok.injEq] at h
    simp only [pyLen, Except.ok.injEq] at hm
    subst h
    subst hm
    simp [pyLen, List.length_drop, List.length_take]
  | pylist vs =>
    simp only [pySliceRange, Except.ok.injEq] at h
    simp only [pyLen, Except.ok.injEq] at hm
    subst h
    subst hm
    simp [pyLen, List.length_drop, List.length_take]
  | pystr s =>
    simp only [pySliceRange, Except.ok.injEq] at h
    simp only [pyLen, Except.ok.injEq] at hm
    subst h
    subst hm
    show Except.ok ((s.data.take b).drop a).length = _
    rw [List.length_drop, List.length_take]

theorem maskStep_len {maskR : Option (Nat × Nat)} {v v' : PyValue}
    (h : maskStep maskR v = .ok v') : pyLen v' = pyLen v := by
  cases maskR with
  | none => simp only [maskStep, Except.ok.injEq] at h; rw [h]
  | some ab => exact pySetZero_len h

theorem cropStep_len {cropR : Option (Nat × Nat)} {v v' : PyValue} {L : Nat}
    (h : cropStep cropR v = .ok v') (hv : pyLen v = .ok L) :
    pyLen v' = .ok (cropLenOf cropR L) := by
  cases cropR with
  | none =>
    simp only [cropStep, Except.ok.injEq] at h
    rw [← h, cropLenOf]
    exact hv
  | some ab =>
    rw [cropLenOf]
    exact pySlice_len h hv

theorem alignEntry_key {na : List String} {L : Nat}
    {maskR cropR : Option (Nat × Nat)} {p p' : String × PyValue}
    (h : alignEntry na L maskR cropR p = .ok p') : p'.1 = p.1 := by
  unfold alignEntry at h
  split at h
  · simp only [Except.ok.injEq] at h; rw [← h]
  · split at h
    · exact absurd h (by simp)
    · split at h
      · exact absurd h (by simp)
      · split at h
        · exact absurd h (by simp)
        · simp only [Except.ok.injEq] at h
          rw [← h]

theorem alignEntry_len {na : List String} {L : Nat}
    {maskR cropR : Option (Nat × Nat)} {k : String} {v v' : PyValue} {n : Nat}
    (h : alignEntry na L maskR cropR (k, v) = .ok (k, v'))
    (hx : na.contains k = false) (hn : pyLen v = .ok n) (hL : L ≤ n) :
    pyLen v' = .ok (cropLenOf cropR L) := by
  unfold alignEntry at h
  rw [if_neg (by rw [hx]; exact Bool.false_ne_true)] at h
  split at h
  · exact absurd h (by simp)
  · rename_i v1 h1
    have hlen1 : pyLen v1 = .ok L := pyTake_len h1 hn hL
    split at h
    · exact absurd h (by simp)
    · rename_i v2 h2
      have hlen2 : pyLen v2 = .ok L := by rw [maskStep_len h2]; exact hlen1
      split at h
      · exact absurd h (by simp)
      · rename_i v3 h3
        simp only [Except.ok.injEq, Prod.mk.injEq] at h
        rw [← h.2]
        exact cropStep_len h3 hlen2

theorem alignLoop_dget {na : List String} {L : Nat}
    {maskR cropR : Option (Nat × Nat)} :
    ∀ {d d' : DataMap}, alignLoop na L maskR cropR d = .ok d' →
      ∀ k v', dget d' k = some v' →
        ∃ v, dget d k = some v ∧ alignEntry na L maskR cropR (k, v) = .ok (k, v') := by
  intro d
  induction d with
  | nil =>
    intro d' h k v' hg
    simp only [alignLoop, Except.ok.injEq] at h
    rw [← h] at hg
    exact absurd hg (by simp [dget, List.find?])
  | cons p rest ih =>
    intro d' h k v' hg
    unfold alignLoop at h
    cases h1 : alignEntry na L maskR cropR p with
    | error e => rw [h1] at h; exact absurd h (by simp)
    | ok p' =>
      rw [h1] at h
      cases h2 : alignLoop na L maskR cropR rest with
      | error e => rw [h2] at h; exact absurd h (by simp)
      | ok rest' =>
        rw [h2] at h
        simp only [Except.ok.injEq] at h
        rw [← h] at hg
        have hkey : p'.1 = p.1 := alignEntry_key h1
        cases hpk : (p.1 == k) with
        | true =>
          have hpk' : (p'.1 == k) = true := by rw [hkey]; exact hpk
          rw [dget_cons_hit hpk'] at hg
          refine ⟨p.2, dget_cons_hit hpk, ?_⟩
          have hk : p.1 = k := eq_of_beq hpk
          have hp : p = (k, p.2) := by
            cases p; simp only [Prod.mk.injEq]; exact ⟨hk, trivial⟩
          have hp' : p' = (k, v') := by
            cases p'
            simp only [Prod.mk.injEq]
            constructor
            · simpa [hk] using hkey
            · simpa using hg
          rw [← hp, ← hp']
          exact h1
        | false =>
          have hpk' : (p'.1 == k) = false := by rw [hkey]; exact hpk
          rw [dget_cons_miss hpk'] at hg
          rw [dget_cons_miss hpk]
          exact ih h2 k v' hg

theorem loadLoop_log {uid : String} {pitch : Int} :
    ∀ {lds : List (String × Loader)} {d0 : DataMap}
      {log0 log' : List (String × AKey)} {d' : DataMap},
      loadLoop uid pitch lds d0 log0 = .ok (d', log') →
      log' = log0.reverse ++ lds.map (fun p => (p.1, queryKeyFor p.1 uid pitch)) := by
  intro lds
  induction lds with
  | nil =>
    intro d0 log0 log' d' h
    simp only [loadLoop, Except.ok.injEq, Prod.mk.injEq] at h
    simp [← h.2]
  | cons p rest ih =>
    intro d0 log0 log' d' h
    obtain ⟨name, loader⟩ := p
    unfold loadLoop at h
    cases h1 : loader.call (queryKeyFor name uid pitch) with
    | error e => rw [h1] at h; exact absurd h (by simp)
    | ok v =>
      rw [h1] at h
      have := ih h
      rw [this]
      simp [List.reverse_cons, List.append_assoc]

theorem getitem_eq_miss {d : MuskitDataset} {cache : Option SizedDict}
    {rng : Rng} {uid : String}
    (hmiss : cacheLookup cache uid = none) :
    MuskitDataset.getitem d cache rng uid = MuskitDataset.getitemMiss d cache rng uid := by
  unfold MuskitDataset.getitem
  rw [hmiss]

theorem getitemMiss_inv {d : MuskitDataset} {cache : Option SizedDict}
    {rng : Rng} {uid : String} {res : String × DataMap} {c' : Option SizedDict}
    {rng' : Rng} {log : List (String × AKey)}
    (h : MuskitDataset.getitemMiss d cache rng uid = .ok (res, c', rng', log)) :
    ∃ pitch tval data1 rng1 L maskR cropR rng2 rng3 data2 data4,
      rawStage d rng uid = .ok (pitch, tval, data1, log, rng1) ∧
      computeAlignLen d.not_align data1 = .ok L ∧
      maskStage d L rng1 = .ok (maskR, rng2) ∧
      cropStage d L rng2 = .ok (cropR, rng3) ∧
      alignLoop d.not_align L maskR cropR data1 = .ok data2 ∧
      castLoop (dset (dset data2 "pitch_aug" (npArrayOfNum (.pyint pitch)))
        "time_aug" (npArrayOfNum tval)) = .ok data4 ∧
      res = (uid, data4) ∧ c' = cacheInsert d cache uid data4 ∧ rng' = rng3 := by
  unfold MuskitDataset.getitemMiss at h
  split at h
  · exact absurd h (by simp)
  · rename_i pitch tval data1 log1 rng1 hraw
    unfold finishStage at h
    split at h
    · exact absurd h (by simp)
    · rename_i L hlen
      split at h
      · exact absurd h (by simp)
      · rename_i maskR rng2 hmask
        split at h
        · exact absurd h (by simp)
        · rename_i cropR rng3 hcrop
          split at h
          · exact absurd h (by simp)
          · rename_i data2 halign
            split at h
            · exact absurd h (by simp)
            · rename_i data4 hcast
              simp only [Except.ok.injEq, Prod.mk.injEq] at h
              exact ⟨pitch, tval, data1, rng1, L, maskR, cropR, rng2, rng3,
                data2, data4, h.2.2.2 ▸ hraw, hlen, hmask, hcrop, halign, hcast,
                h.1.symm, h.2.1.symm, h.2.2.1.symm⟩

theorem cropLenOf_le (cropR : Option (Nat × Nat)) (L : Nat) :
    cropLenOf cropR L ≤ L := by
  cases cropR with
  | none => exact Nat.le_refl L
  | some ab =>
    simp only [cropLenOf]
    omega

theorem cropStage_off {d : MuskitDataset} {L : Nat} {rng : Rng}
    {out : Option (Nat × Nat) × Rng}
    (hoff : (d.mode == "train" && d.random_crop) = false)
    (h : cropStage d L rng = .ok out) : out.1 = none := by
  unfold cropStage at h
  rw [hoff, if_neg Bool.false_ne_true] at h
  simp only [Except.ok.injEq] at h
  rw [← h]

theorem sampleAug_valid {d : MuskitDataset} {uid : String} {rng : Rng}
    (hmode : (d.mode == "train") = false) :
    sampleAug d uid rng = .ok (0, .pyint 1, rng) := by
  unfold sampleAug
  rw [hmode, if_neg Bool.false_ne_true]

theorem rawStage_valid_mode {d : MuskitDataset} {rng : Rng} {uid : String}
    {pitch : Int} {tval : PyValue} {data1 : DataMap}
    {log : List (String × AKey)} {rng1 : Rng}
    (hmode : (d.mode == "train") = false)
    (h : rawStage d rng uid = .ok (pitch, tval, data1, log, rng1)) :
    pitch = 0 ∧ tval = .pyint 1 ∧ rng1 = rng := by
  unfold rawStage at h
  split at h
  · exact absurd h (by simp)
  · rename_i p t r hsamp
    rw [sampleAug_valid hmode] at hsamp
    simp only [Except.ok.injEq, Prod.mk.injEq] at hsamp
    obtain ⟨hp, ht, hr⟩ := hsamp
    subst hp
    subst ht
    subst hr
    split at h
    · exact absurd h (by simp)
    · rename_i data0 log0 hload
      simp only [Except.ok.injEq, Prod.mk.injEq] at h
      exact ⟨h.1.symm, h.2.1.symm, h.2.2.2.2.symm⟩

theorem rawStage_inv {d : MuskitDataset} {rng : Rng} {uid : String}
    {pitch : Int} {tval : PyValue} {data1 : DataMap}
    {log : List (String × AKey)} {rng1 : Rng}
    (h : rawStage d rng uid = .ok (pitch, tval, data1, log, rng1)) :
    ∃ data0, loadLoop uid pitch d.loader_dict [] [] = .ok (data0, log) ∧
      data1 = applyPre d.preprocess uid data0 (numQ tval) := by
  unfold rawStage at h
  split at h
  · exact absurd h (by simp)
  · rename_i p t rng1' hsamp
    split at h
    · exact absurd h (by simp)
    · rename_i data0 log0 hload
      simp only [Except.ok.injEq, Prod.mk.injEq] at h
      obtain ⟨hp, ht, hd, hl, hr⟩ := h
      subst hp
      subst ht
      exact ⟨data0, by rw [hl] at hload; exact hload, hd.symm⟩

/-- A stand-in constructed loader for concrete runs: a fixed key set,
every query answered with the same value. -/
def constLoader (keys : List String) (v : PyValue) : Loader :=
  { keys := keys, call := fun _ => .ok v }

/-- A small non-training dataset over one constant modality. -/
def cfgValidW : MuskitDataset :=
  { loader_dict := [("x", constLoader ["u1"] (.ndarray .f [.pyfloat 1, .pyfloat 2]))]
    preprocess := none
    max_cache_size := 0
    not_align := ["text"]
    mode := "valid"
    pitch_aug_min := 0
    pitch_aug_max := 0
    pitch_mean := .none
    time_aug_min := 1
    time_aug_max := 1
    random_crop := false
    mask_aug := false
    recordSize := fun _ => 1 }

/-- C10: whenever the requested utterance id is present in the cache,
`__getitem__` returns the cached record immediately: no augmentation
sampling (the random stream is untouched), no loader queries (the log
is empty), no cache insertion (the cache is unchanged), and the
returned record is the cached one, whatever the mode. -/
theorem C10_cache_short_circuit (d : MuskitDataset) (c : SizedDict) (rng : Rng)
    (uid : String) (data : DataMap) (h : c.find uid = some data) :
    MuskitDataset.getitem d (some c) rng uid =
      .ok ((uid, data), some c, rng, []) := by
  unfold MuskitDataset.getitem
  have hc : cacheLookup (some c) uid = some data := h
  rw [hc]

/-- C3: outside training mode, every record `__getitem__` assembles
carries `pitch_aug = [0]` and `time_aug = [1]`, for any augmentation
bounds and any randomness. -/
theorem C3_identity_aug_non_train {d : MuskitDataset} {c : Option SizedDict}
    {r : Rng} {u : String} {res : String × DataMap} {c' : Option SizedDict}
    {rng' : Rng} {log : List (String × AKey)}
    (hmode : (d.mode == "train") = false)
    (hmiss : cacheLookup c u = none)
    (h : MuskitDataset.getitem d c r u = .ok (res, c', rng', log)) :
    dget res.2 "pitch_aug" = some (.ndarray .i [.pyint 0]) ∧
    dget res.2 "time_aug" = some (.ndarray .i [.pyint 1]) := by
  rw [getitem_eq_miss hmiss] at h
  obtain ⟨pitch, tval, data1, rng1, L, maskR, cropR, rng2, rng3, data2, data4,
    hraw, hlen, hmask, hcrop, halign, hcast, hres, hc, hr⟩ := getitemMiss_inv h
  obtain ⟨hp, ht, -⟩ := rawStage_valid_mode hmode hraw
  subst hp
  subst ht
  rw [hres]
  simp only
  rw [castLoop_id hcast]
  constructor
  · rw [dget_dset_ne _ _ _ _ (by decide)]
    exact dget_dset_same _ _ _
  · exact dget_dset_same _ _ _

/-- A training-mode dataset with an audio modality named `"singing"`
and a degenerate time-augmentation range `[1.5, 1.5]`, so the sampled
time-stretch factor is forced to `1.5`. -/
def cfgC4 : MuskitDataset :=
  { loader_dict := [("singing",
      { keys := ["u1"],
        call := fun k => match k with
          | .ofTriple _ _ _ => .ok (.ndarray .f [.pyfloat 1, .pyfloat 2, .pyfloat 3])
          | .ofStr _ => .error (.keyError "u1") })]
    preprocess := none
    max_cache_size := 0
    not_align := ["text"]
    mode := "train"
    pitch_aug_min := 0
    pitch_aug_max := 0
    pitch_mean := .none
    time_aug_min := 3/2
    time_aug_max := 3/2
    random_crop := false
    mask_aug := false
    recordSize := fun _ => 1 }

/-- C4, counterexample: in this training-mode run the sampled
time-stretch factor is `1.5` (visible in the returned `time_aug`
field), yet the `"singing"` audio loader is queried with
`(uid, 0, 1)` — time factor pinned to `1`, not the sampled `1.5`
(`global_time_aug_factor = 1` covers `"singing"` too, dataset.py lines
579-581). -/
theorem C4_counterexample :
    MuskitDataset.getitem cfgC4 none [0, 0] "u1" =
      .ok (("u1", [("singing", .ndarray .f [.pyfloat 1, .pyfloat 2, .pyfloat 3]),
                   ("pitch_aug", .ndarray .i [.pyint 0]),
                   ("time_aug", .ndarray .f [.pyfloat (3/2)])]),
           none, [], [("singing", AKey.ofTriple "u1" (.pyint 0) (.pyint 1))])
    ∧ PyValue.pyint 1 ≠ PyValue.pyfloat (3/2) :=
  ⟨by with_unfolding_all rfl, fun hh => nomatch hh⟩

/-- C4, amended: in every successful `__getitem__` run, the `"midi"`
and `"singing"` loaders are both queried with
`(uid, pitch_aug_factor, 1)` — the time factor passed to loaders is
pinned to `1` for both — and every other loader is queried with the
bare id; the sampled time factor reaches only the preprocessing
function and the returned `time_aug` field. -/
theorem C4_pinned_time_factor {d : MuskitDataset} {c : Option SizedDict}
    {r : Rng} {u : String} {res : String × DataMap} {c' : Option SizedDict}
    {rng' : Rng} {log : List (String × AKey)}
    (h : MuskitDataset.getitem d c r u = .ok (res, c', rng', log)) :
    ∃ pitch : Int, ∀ nk ∈ log,
      ((nk.1 = "midi" ∨ nk.1 = "singing") →
        nk.2 = AKey.ofTriple u (.pyint pitch) (.pyint 1)) ∧
      (¬(nk.1 = "midi" ∨ nk.1 = "singing") → nk.2 = AKey.ofStr u) := by
  unfold MuskitDataset.getitem at h
  cases hcl : cacheLookup c u with
  | some data =>
    rw [hcl] at h
    simp only [Except.ok.injEq, Prod.mk.injEq] at h
    refine ⟨0, ?_⟩
    intro nk hnk
    rw [← h.2.2.2] at hnk
    exact absurd hnk (by simp)
  | none =>
    rw [hcl] at h
    obtain ⟨pitch, tval, data1, rng1, L, maskR, cropR, rng2, rng3, data2, data4,
      hraw, -, -, -, -, -, -, -, -⟩ := getitemMiss_inv h
    obtain ⟨data0, hload, -⟩ := rawStage_inv hraw
    have hlog := loadLoop_log hload
    refine ⟨pitch, ?_⟩
    intro nk hnk
    rw [hlog] at hnk
    simp only [List.reverse_nil, List.nil_append] at hnk
    obtain ⟨q, hq, rfl⟩ := List.mem_map.mp hnk
    constructor
    · intro hms
      have hcond : (q.1 == "midi" || q.1 == "singing") = true := by
        rcases hms with h1 | h1
        · have h1' : q.1 = "midi" := h1
          simp [h1']
        · have h1' : q.1 = "singing" := h1
          simp [h1']
      show queryKeyFor q.1 u pitch = _
      unfold queryKeyFor
      rw [if_pos hcond]
    · intro hneg
      have hcond : (q.1 == "midi" || q.1 == "singing") = false := by
        obtain ⟨h1, h2⟩ := not_or.mp hneg
        have h1' : q.1 ≠ "midi" := h1
        have h2' : q.1 ≠ "singing" := h2
        simp [beq_eq_false_iff_ne.mpr h1', beq_eq_false_iff_ne.mpr h2']
      show queryKeyFor q.1 u pitch = _
      unfold queryKeyFor
      rw [if_neg (by rw [hcond]; exact Bool.false_ne_true)]

/-- Concrete instance of the amended C4 statement, at the `cfgC4` run. -/
theorem C4_pinned_time_factor_witness :
    ∃ pitch : Int,
      ∀ nk ∈ ([("singing", AKey.ofTriple "u1" (PyValue.pyint 0) (PyValue.pyint 1))] :
          List (String × AKey)),
        ((nk.1 = "midi" ∨ nk.1 = "singing") →
          nk.2 = AKey.ofTriple "u1" (.pyint pitch) (.pyint 1)) ∧
        (¬(nk.1 = "midi" ∨ nk.1 = "singing") → nk.2 = AKey.ofStr "u1") := by
  with_unfolding_all exact C4_pinned_time_factor (d := cfgC4) (c := none) (r := [0, 0]) rfl

/-- A native `SoundScpReader` read for the C2 scenario (the reader
itself lives in `muskit.fileio.sound_scp`, outside the dataset module):
returns the usual `(sample_rate, waveform)` pair for any query. -/
def nativeSoundC2 : NativeTriple := fun _ _ _ =>
  .ok (.tuple [.pyint 24000, .ndarray .f [.pyfloat 0, .pyfloat 0]])

/-- A native `read_label` dict for the C2 scenario: one row of
`[start, end, phone]` per utterance. -/
def nativeLabelC2 : NativeById := fun _ =>
  .ok (.pylist [.pylist [.pyfloat 0, .pyfloat (1/2), .pystr "a"]])

/-- `_build_loader`'s `DATA_TYPES` dispatch (dataset.py lines 228-356,
455-493) specialized to the two loader types the C2 scenario declares:
`"sound"` builds `sound_loader` (an `AdapterForSoundScpReader` over the
scp reader), `"duration"` builds `label_loader`. -/
def buildC2 : String → String → Except PyErr Loader := fun _ ty =>
  if ty == "sound" then .ok (sound_loader ["u1"] nativeSoundC2 (some .f))
  else if ty == "duration" then .ok (label_loader ["u1"] nativeLabelC2)
  else .error (.runtimeError ("Not supported: loader_type=" ++ ty))

/-- The constructor arguments of the C2 scenario: modalities
`[("wav.scp", "input", "sound"), ("label", "output", "duration")]`,
mode `"valid"`, everything else at the source defaults. -/
def argsC2 : InitArgs :=
  { path_name_type_list := [("wav.scp", "input", "sound"), ("label", "output", "duration")]
    preprocess := none
    max_cache_size := 0
    not_align := ["text"]
    mode := "valid"
    pitch_aug_min := 0
    pitch_aug_max := 0
    pitch_mean := .none
    time_aug_min := 1
    time_aug_max := 1
    random_crop := false
    mask_aug := false
    recordSize := fun _ => 1 }

/-- C2: construction of the scenario dataset succeeds, but
`dataset["u1"]` raises instead of returning the record the spec
describes: the `"input"` modality is neither `"midi"` nor `"singing"`,
so its loader is queried with the bare id `"u1"`, and
`AdapterForSoundScpReader.__getitem__` unpacks its key into
`(key, pitch_aug_factor, time_aug_factor)` (dataset.py line 55), which
raises `ValueError` on a two-character string — contradicting the
class's own docstring example (dataset.py lines 376-381). -/
theorem C2_scenario_raises :
    ∃ d cache, MuskitDataset.init buildC2 argsC2 = .ok (d, cache) ∧
      MuskitDataset.getitem d cache [] "u1" =
        .error (.valueError "not enough values to unpack (expected 3)") :=
  ⟨_, _, rfl, rfl⟩

/-- A native audio read returning `(sample_rate, waveform)`. -/
def nativeSoundOkEx : NativeTriple := fun _ _ _ =>
  .ok (.tuple [.pyint 16000, .ndarray .f [.pyfloat 1, .pyfloat 2]])

/-- A native audio read returning the swapped `(waveform, sample_rate)`
order the "Extended ark format" comment claims to support. -/
def nativeSoundSwapped : NativeTriple := fun _ _ _ =>
  .ok (.tuple [.ndarray .f [.pyfloat 1, .pyfloat 2], .pyint 16000])

/-- C7: the audio adapter accepts only the `(rate, waveform)` order —
a `(waveform, rate)` pair raises `RuntimeError "Unexpected type"`,
because the second `elif` of dataset.py lines 63-65 repeats the first
branch's guard verbatim and is dead, contradicting its own
"Extended ark format case" comment; the `(rate, waveform)` order is
normalized to the waveform with the rate remembered, and a remembered
rate differing from the observed one raises the mismatch error. -/
theorem C7_order_detection_broken :
    AdapterForSoundScpReader.step nativeSoundSwapped none none
      (.ofTriple "u1" (.pyint 0) (.pyint 1)) =
        .error (.runtimeError "Unexpected type")
    ∧ AdapterForSoundScpReader.step nativeSoundOkEx none none
      (.ofTriple "u1" (.pyint 0) (.pyint 1)) =
        .ok (.ndarray .f [.pyfloat 1, .pyfloat 2], some 16000)
    ∧ AdapterForSoundScpReader.step nativeSoundOkEx none (some 8000)
      (.ofTriple "u1" (.pyint 0) (.pyint 1)) =
        .error (.runtimeError "Sampling rates are mismatched") :=
  ⟨rfl, rfl, rfl⟩

/-- C9: whenever construction succeeds, the final assertions of
`__init__` (dataset.py lines 449-453) held: the pitch bounds are
ordered, the time bounds are ordered, and a configured pitch-mean
target forces both pitch bounds to zero. -/
theorem C9_init_assertions (build : String → String → Except PyErr Loader)
    (a : InitArgs) {x : MuskitDataset × Option SizedDict}
    (h : MuskitDataset.init build a = .ok x) :
    a.pitch_aug_min ≤ a.pitch_aug_max ∧ a.time_aug_min ≤ a.time_aug_max ∧
      (a.pitch_mean ≠ PitchMeanCfg.none →
        a.pitch_aug_min = 0 ∧ a.pitch_aug_max = 0) := by
  unfold MuskitDataset.init at h
  split at h
  · exact absurd h (by simp)
  · split at h
    · exact absurd h (by simp)
    · rename_i ld hld
      split at h
      · exact absurd h (by simp)
      · rename_i h1
        split at h
        · exact absurd h (by simp)
        · rename_i h2
          split at h
          · exact absurd h (by simp)
          · rename_i h3
            split at h
            · exact absurd h (by simp)
            · rename_i h4
              refine ⟨not_not.mp h1, not_not.mp h2, ?_⟩
              intro hpm
              have hnone : ¬ a.pitch_mean.isNone = true := by
                cases hpmv : a.pitch_mean with
                | none => exact absurd hpmv hpm
                | scalar q => simp [PitchMeanCfg.isNone]
                | perSpeaker l => simp [PitchMeanCfg.isNone]
              constructor
              · by_contra hmin
                exact h3 ⟨hnone, hmin⟩
              · by_contra hmax
                exact h4 ⟨hnone, hmax⟩

/-- A loader-builder and arguments for a successful construction. -/
def loaderW : Loader := constLoader ["u1"] (.ndarray .f [.pyfloat 1])

/-- A builder that serves `loaderW` for every path and type. -/
def buildW : String → String → Except PyErr Loader := fun _ _ => .ok loaderW

/-- Well-formed constructor arguments with one declared modality. -/
def argsW : InitArgs :=
  { path_name_type_list := [("wav.scp", "singing", "sound")]
    preprocess := none
    max_cache_size := 0
    not_align := ["text"]
    mode := "valid"
    pitch_aug_min := 0
    pitch_aug_max := 0
    pitch_mean := .none
    time_aug_min := 1
    time_aug_max := 1
    random_crop := false
    mask_aug := false
    recordSize := fun _ => 1 }

/-- Concrete instance of C9 at a successful construction. -/
theorem C9_init_assertions_witness :
    argsW.pitch_aug_min ≤ argsW.pitch_aug_max ∧
    argsW.time_aug_min ≤ argsW.time_aug_max ∧
      (argsW.pitch_mean ≠ PitchMeanCfg.none →
        argsW.pitch_aug_min = 0 ∧ argsW.pitch_aug_max = 0) :=
  C9_init_assertions buildW argsW rfl

theorem buildLoop_dup (build : String → String → Except PyErr Loader) :
    ∀ (l : List (String × String × String)) (acc : List (String × Loader)) (n : String),
      (∀ p nm t, (p, nm, t) ∈ l → ∃ ld, build p t = .ok ld ∧ ld.keys.length ≠ 0) →
      n ∈ l.map (fun x => x.2.1) →
      (acc.any (fun q => q.1 == n) = true ∨ 2 ≤ (l.map (fun x => x.2.1)).count n) →
      ∃ m, buildLoop build l acc = .error (.runtimeError (dupKeyMsg m)) := by
  intro l
  induction l with
  | nil => intro acc n hb hmem hdisj; simp at hmem
  | cons hd rest ih =>
    intro acc n hb hmem hdisj
    obtain ⟨p, nm, t⟩ := hd
    unfold buildLoop
    cases hacc : acc.any (fun q => q.1 == nm) with
    | true =>
      rw [if_pos rfl]
      exact ⟨nm, rfl⟩
    | false =>
      rw [if_neg Bool.false_ne_true]
      obtain ⟨ld, hld, hkeys⟩ := hb p nm t (List.mem_cons_self _ _)
      rw [hld]
      show ∃ m, (if ld.keys.length = 0 then
          Except.error (PyErr.runtimeError (noSamplesMsg p))
        else buildLoop build rest (acc ++ [(nm, ld)])) =
          Except.error (PyErr.runtimeError (dupKeyMsg m))
      rw [if_neg hkeys]
      have hmem' : n = nm ∨ n ∈ rest.map (fun x => x.2.1) := by
        simpa using hmem
      have hb' : ∀ p' nm' t', (p', nm', t') ∈ rest →
          ∃ ld', build p' t' = .ok ld' ∧ ld'.keys.length ≠ 0 :=
        fun p' nm' t' hm => hb p' nm' t' (List.mem_cons_of_mem _ hm)
      rcases hdisj with haccn | hcount
      · have hne : n ≠ nm := by
          intro he
          rw [he] at haccn
          rw [hacc] at haccn
          exact Bool.false_ne_true haccn
        have hmemr : n ∈ rest.map (fun x => x.2.1) := by
          rcases hmem' with he | hr
          · exact absurd he hne
          · exact hr
        apply ih (acc ++ [(nm, ld)]) n hb' hmemr
        left
        rw [List.any_append]
        rw [haccn]
        rfl
      · by_cases hnm : n = nm
        · subst hnm
          have hcr : 1 ≤ (rest.map (fun x => x.2.1)).count n := by
            have : (((p, n, t) :: rest).map (fun x => x.2.1)).count n =
                (rest.map (fun x => x.2.1)).count n + 1 := by
              simp [List.count_cons]
            omega
          have hmemr : n ∈ rest.map (fun x => x.2.1) :=
            List.count_pos_iff.mp (by omega)
          apply ih (acc ++ [(n, ld)]) n hb' hmemr
          left
          rw [List.any_append]
          simp
        · have hcr : 2 ≤ (rest.map (fun x => x.2.1)).count n := by
            have : (((p, nm, t) :: rest).map (fun x => x.2.1)).count n =
                (rest.map (fun x => x.2.1)).count n := by
              simp [List.count_cons, hnm]
            omega
          have hmemr : n ∈ rest.map (fun x => x.2.1) :=
            List.count_pos_iff.mp (by omega)
          exact ih (acc ++ [(nm, ld)]) n hb' hmemr (Or.inr hcr)

/-- C8: declaring the same modality name twice makes construction fail
with the duplicate-data-key `RuntimeError` of dataset.py line 421 (so
no dataset object exists to fetch records from), provided the entries'
loaders themselves build with nonempty indices. -/
theorem C8_duplicate_name_rejected (build : String → String → Except PyErr Loader)
    (a : InitArgs) (n : String)
    (hb : ∀ p nm t, (p, nm, t) ∈ a.path_name_type_list →
      ∃ ld, build p t = .ok ld ∧ ld.keys.length ≠ 0)
    (hdup : 2 ≤ (a.path_name_type_list.map (fun x => x.2.1)).count n) :
    ∃ m, MuskitDataset.init build a = .error (.runtimeError (dupKeyMsg m)) := by
  have hmem : n ∈ a.path_name_type_list.map (fun x => x.2.1) :=
    List.count_pos_iff.mp (by omega)
  obtain ⟨m, hm⟩ := buildLoop_dup build a.path_name_type_list [] n hb hmem (Or.inr hdup)
  refine ⟨m, ?_⟩
  unfold MuskitDataset.init
  rw [if_neg ?hlen]
  case hlen =>
    intro h0
    rw [List.length_eq_zero.mp h0] at hmem
    simp at hmem
  rw [hm]

/-- Constructor arguments declaring the name `"input"` twice. -/
def argsDupW : InitArgs :=
  { argsW with path_name_type_list :=
      [("wav.scp", "input", "sound"), ("feats.scp", "input", "npy")] }

/-- Concrete instance of C8: the duplicate declaration of `"input"`
fails with the duplicate-key error. -/
theorem C8_duplicate_name_rejected_witness :
    ∃ m, MuskitDataset.init buildW argsDupW =
      .error (.runtimeError (dupKeyMsg m)) := by
  apply C8_duplicate_name_rejected buildW argsDupW "input"
  · intro p nm t hmem
    exact ⟨loaderW, rfl, by decide⟩
  · decide

theorem buildLoop_names (build : String → String → Except PyErr Loader) :
    ∀ (l : List (String × String × String)) (acc ld : List (String × Loader)),
      buildLoop build l acc = .ok ld →
      (∀ s, s ∈ acc.map (fun z => z.1) → s ∈ ld.map (fun z => z.1)) ∧
      (∀ x ∈ l, x.2.1 ∈ ld.map (fun z => z.1)) := by
  intro l
  induction l with
  | nil =>
    intro acc ld h
    simp only [buildLoop, Except.ok.injEq] at h
    subst h
    exact ⟨fun s hs => hs, fun x hx => absurd hx (by simp)⟩
  | cons hd rest ih =>
    intro acc ld h
    obtain ⟨p, nm, t⟩ := hd
    unfold buildLoop at h
    split at h
    · exact absurd h (by simp)
    · split at h
      · exact absurd h (by simp)
      · rename_i loader hloader
        split at h
        · exact absurd h (by simp)
        · obtain ⟨hacc, hl⟩ := ih (acc ++ [(nm, loader)]) ld h
          have hnm : nm ∈ ld.map (fun z => z.1) := by
            apply hacc
            simp
          refine ⟨?_, ?_⟩
          · intro s hs
            apply hacc
            simp only [List.map_append, List.mem_append]
            exact Or.inl hs
          · intro x hx
            rcases List.mem_cons.mp hx with rfl | hmem
            · exact hnm
            · exact hl x hmem

/-- C5, counterexample: no class in `MuskitDataset`'s method-resolution
order defines `__len__` (the method lists are transcribed from
dataset.py lines 359-370 and 373-671 and the external torch base), so
`len(dataset)` raises `TypeError` instead of returning the entry count
of the first-declared loader. -/
theorem C5_no_dunder_len :
    datasetDefinesDunderLen = false ∧
    MuskitDataset.pyLenOf cfgValidW =
      .error (.typeError "object of type MuskitDataset has no len()") :=
  ⟨rfl, rfl⟩

/-- C5, amended: `len(dataset)` is not available — `MuskitDataset`
implements no `__len__`, so Python raises `TypeError`; the other half
of the claim holds: every declared modality name appears in
`names()`. -/
theorem C5_len_and_names :
    (∀ d : MuskitDataset, MuskitDataset.pyLenOf d =
      .error (.typeError "object of type MuskitDataset has no len()"))
    ∧ (∀ (build : String → String → Except PyErr Loader) (a : InitArgs)
        (x : MuskitDataset × Option SizedDict),
        MuskitDataset.init build a = .ok x →
        ∀ p nm t, (p, nm, t) ∈ a.path_name_type_list → nm ∈ x.1.names) := by
  refine ⟨fun d => rfl, ?_⟩
  intro build a x h p nm t hmem
  unfold MuskitDataset.init at h
  split at h
  · exact absurd h (by simp)
  · split at h
    · exact absurd h (by simp)
    · rename_i ld hld
      split at h
      · exact absurd h (by simp)
      · split at h
        · exact absurd h (by simp)
        · split at h
          · exact absurd h (by simp)
          · split at h
            · exact absurd h (by simp)
            · simp only [Except.ok.injEq] at h
              have hx1 : x.1.loader_dict = ld := by rw [← h]
              have := (buildLoop_names build a.path_name_type_list [] ld hld).2
                (p, nm, t) hmem
              unfold MuskitDataset.names
              rw [hx1]
              exact this

/-- Concrete instance of the amended C5 statement. -/
theorem C5_len_and_names_witness :
    (MuskitDataset.pyLenOf cfgC4 =
      .error (.typeError "object of type MuskitDataset has no len()"))
    ∧ ∃ x : MuskitDataset × Option SizedDict,
        MuskitDataset.init buildW argsW = .ok x ∧ "singing" ∈ x.1.names := by
  constructor
  · exact C5_len_and_names.1 cfgC4
  · exact ⟨_, rfl,
      C5_len_and_names.2 buildW argsW _ rfl "wav.scp" "singing" "sound" (by simp [argsW])⟩

/-- A training-mode dataset with pitch bounds `[-2, 2]` and no
pitch-mean target. -/
def cfgC6 : MuskitDataset :=
  { cfgValidW with mode := "train", pitch_aug_min := -2, pitch_aug_max := 2 }

/-- A loader for the `"midi"` modality: a `(note_sequence, tempo)`
pair of arrays (mean note value 60). -/
def midiLoaderC6 : Loader :=
  constLoader ["u1"] (.tuple [.ndarray .i [.pyint 60], .ndarray .i [.pyint 80]])

/-- A training-mode dataset with a scalar pitch-mean target of 62 and a
`"midi"` modality. -/
def cfgC6s : MuskitDataset :=
  { cfgValidW with
      mode := "train"
      pitch_mean := .scalar 62
      loader_dict := [("midi", midiLoaderC6)] }

/-- C6: the pitch-augmentation draw. (a) Without a pitch-mean target
every successful draw lies in the inclusive configured range
`[pitch_aug_min, pitch_aug_max]`. (b) With bounds `[-2, 2]` some
randomness yields a nonzero factor. (c) With a scalar pitch-mean
target the draw lies in the inclusive integer range spanning `0` to
`gap`, direction-aware, where `gap = int(target - mean(note_seq))` for
the identity-augmented `"midi"` note sequence. -/
theorem C6_pitch_sampling :
    (∀ (d : MuskitDataset) (uid : String) (rng : Rng) (p : Int) (rng' : Rng),
      d.pitch_mean = PitchMeanCfg.none →
      samplePitchAug d uid rng = .ok (p, rng') →
      d.pitch_aug_min ≤ p ∧ p ≤ d.pitch_aug_max)
    ∧ (∃ (rng : Rng) (p : Int) (rng' : Rng),
        samplePitchAug cfgC6 "u1" rng = .ok (p, rng') ∧ p ≠ 0
          ∧ cfgC6.pitch_aug_min = -2 ∧ cfgC6.pitch_aug_max = 2)
    ∧ (∀ (d : MuskitDataset) (uid : String) (rng : Rng) (p : Int) (rng' : Rng) (q : ℚ),
        d.pitch_mean = PitchMeanCfg.scalar q →
        samplePitchAug d uid rng = .ok (p, rng') →
        ∃ loader v ns ts m,
          dictFindLoader d.loader_dict "midi" = some loader ∧
          loader.call (.ofTriple uid (.pyint 0) (.pyint 1)) = .ok v ∧
          unpack2 v = .ok (ns, ts) ∧ npMean ns = .ok m ∧
          min 0 (truncQ (q - m)) ≤ p ∧ p ≤ max 0 (truncQ (q - m))) := by
  refine ⟨?_, ?_, ?_⟩
  · intro d uid rng p rng' hpm h
    unfold samplePitchAug at h
    rw [hpm] at h
    exact pyRandint_ok_bounds h
  · exact ⟨[3], 1, [], rfl, by decide, rfl, rfl⟩
  · intro d uid rng p rng' q hpm h
    unfold samplePitchAug at h
    split at h
    · rename_i h1
      rw [hpm] at h1
      exact nomatch h1
    · rename_i pm h2
      split at h
      · exact absurd h (by simp)
      · rename_i loader hloader
        split at h
        · exact absurd h (by simp)
        · rename_i v hv
          split at h
          · exact absurd h (by simp)
          · rename_i ns ts hup
            split at h
            · exact absurd h (by simp)
            · rename_i m hm
              rw [hpm] at h
              split at h
              · rename_i e heq
                simp at heq
              · rename_i gm hgm
                simp only [Except.ok.injEq] at hgm
                subst hgm
                have hmem := pySampleOne_ok_mem h
                have hb := mem_pitchGapLst hmem
                exact ⟨loader, v, ns, ts, m, hloader, hv, hup, hm, hb.1, hb.2⟩

/-- Concrete instances of C6 parts (a) and (c): a draw with bounds
`[-2, 2]` landing at 1, and a target-mean draw with gap 2 landing at 1
inside `[0, 2]`. -/
theorem C6_pitch_sampling_witness :
    (cfgC6.pitch_aug_min ≤ 1 ∧ (1 : Int) ≤ cfgC6.pitch_aug_max)
    ∧ ∃ loader v ns ts m,
        dictFindLoader cfgC6s.loader_dict "midi" = some loader ∧
        loader.call (.ofTriple "u1" (.pyint 0) (.pyint 1)) = .ok v ∧
        unpack2 v = .ok (ns, ts) ∧ npMean ns = .ok m ∧
        min 0 (truncQ (62 - m)) ≤ 1 ∧ (1 : Int) ≤ max 0 (truncQ (62 - m)) := by
  constructor
  · exact C6_pitch_sampling.1 cfgC6 "u1" [3] 1 [] rfl rfl
  · exact C6_pitch_sampling.2.2 cfgC6s "u1" [1] 1 [] 62 rfl
      (by with_unfolding_all rfl)

/-- C1: for every record a cacheless `__getitem__` returns, all
non-exempt modalities (the two injected scalar fields aside) share one
leading-dimension length `Lfin`; without a training-mode random crop
`Lfin` is exactly the alignment length `L` — the `min` over the
non-exempt modalities of the assembled raw record — and with a crop it
is the crop window's common length, never exceeding `L`. -/
theorem C1_alignment_invariant {d : MuskitDataset} {r : Rng} {u : String}
    {res : String × DataMap} {c' : Option SizedDict} {rng' : Rng}
    {log : List (String × AKey)}
    (h : MuskitDataset.getitem d none r u = .ok (res, c', rng', log)) :
    ∃ pitch tval data1 rng1 L Lfin,
      rawStage d r u = .ok (pitch, tval, data1, log, rng1) ∧
      computeAlignLen d.not_align data1 = .ok L ∧
      Lfin ≤ L ∧
      ((d.mode == "train" && d.random_crop) = false → Lfin = L) ∧
      (∀ k v, dget res.2 k = some v → d.not_align.contains k = false →
        k ≠ "pitch_aug" → k ≠ "time_aug" → pyLen v = .ok Lfin) := by
  have hmiss : cacheLookup none u = none := rfl
  rw [getitem_eq_miss hmiss] at h
  obtain ⟨pitch, tval, data1, rng1, L, maskR, cropR, rng2, rng3, data2, data4,
    hraw, hlen, hmask, hcrop, halign, hcast, hres, hc, hr⟩ := getitemMiss_inv h
  refine ⟨pitch, tval, data1, rng1, L, cropLenOf cropR L, hraw, hlen,
    cropLenOf_le cropR L, ?_, ?_⟩
  · intro hoff
    have hcr : cropR = none := cropStage_off hoff hcrop
    rw [hcr]
    rfl
  · intro k v hgv hna hkp hkt
    rw [hres] at hgv
    simp only at hgv
    rw [castLoop_id hcast] at hgv
    rw [dget_dset_ne _ _ _ _ hkt] at hgv
    rw [dget_dset_ne _ _ _ _ hkp] at hgv
    obtain ⟨v0, hv0, hentry⟩ := alignLoop_dget halign k v hgv
    obtain ⟨n, hn, hLn⟩ := computeAlignLen_bound hlen (k, v0) (dget_mem hv0) hna
    exact alignEntry_len hentry hna hn hLn

/-- The record the `cfgValidW` fetch assembles. -/
def recW : DataMap :=
  [("x", PyValue.ndarray .f [.pyfloat 1, .pyfloat 2]),
   ("pitch_aug", PyValue.ndarray .i [.pyint 0]),
   ("time_aug", PyValue.ndarray .i [.pyint 1])]

/-- Concrete instance of C1 at a cacheless non-training fetch. -/
theorem C1_alignment_invariant_witness :
    ∃ pitch tval data1 rng1 L Lfin,
      rawStage cfgValidW [] "u1" =
        .ok (pitch, tval, data1, [("x", AKey.ofStr "u1")], rng1) ∧
      computeAlignLen cfgValidW.not_align data1 = .ok L ∧
      Lfin ≤ L ∧
      ((cfgValidW.mode == "train" && cfgValidW.random_crop) = false → Lfin = L) ∧
      (∀ k v, dget recW k = some v →
        cfgValidW.not_align.contains k = false →
        k ≠ "pitch_aug" → k ≠ "time_aug" → pyLen v = .ok Lfin) :=
  C1_alignment_invariant (d := cfgValidW) (r := []) (u := "u1") rfl

/-- Concrete instance of C3: the `cfgValidW` fetch yields identity
augmentation fields. -/
theorem C3_identity_aug_non_train_witness :
    dget (("u1", recW) : String × DataMap).2 "pitch_aug" =
      some (.ndarray .i [.pyint 0]) ∧
    dget (("u1", recW) : String × DataMap).2 "time_aug" =
      some (.ndarray .i [.pyint 1]) :=
  C3_identity_aug_non_train (d := cfgValidW) (c := none) (r := [])
    (u := "u1") rfl rfl rfl

/-- A cache already holding a record for `"u1"`. -/
def cacheW : SizedDict :=
  { entries := [("u1", [("z", .ndarray .i [.pyint 7])])], size := 3 }

/-- Concrete instance of C10: a training-mode fetch of a cached id
returns the cached record, touching neither the cache nor the random
stream nor any loader. -/
theorem C10_cache_short_circuit_witness :
    MuskitDataset.getitem cfgC4 (some cacheW) [5, 6] "u1" =
      .ok (("u1", [("z", PyValue.ndarray .i [.pyint 7])]), some cacheW, [5, 6], []) :=
  C10_cache_short_circuit cfgC4 cacheW [5, 6] "u1" _ rfl
